import Mathlib

/-!
Verification of the listing-classification / dedup / filter-search core of
`src/main.py` (an aiogram car-catalog bot).  The Python functions
`normalize`, `to_int_price`, `parse_basic`, `h`, `build_filters`,
`exists_by_hash`, `add_listing`, `mark_sold`, `get_listing`, `search_db`,
and the handlers `catch_group` / `sold_cb` are embedded as executable Lean
definitions below; the theorems at the end of the file settle the frozen
claims about them.

Conventions of the embedding:
* texts are `String` / `List Char`; positions are `Nat` indices;
* the regular expressions `YEAR_RE`, `PRICE_TOKEN_RE`, `PRICE_RANGE_RE` and
  the inline price pattern of `parse_basic` are compiled by hand into
  position-indexed matchers with Python `re` leftmost-match semantics;
* Python character classes are modelled at ASCII level (`\w` as ASCII
  alphanumeric or underscore, `\s` as ASCII whitespace, `\d` as ASCII
  digits); all claim inputs are ASCII;
* Python exceptions are modelled by `Option`: a function that can raise
  returns `none` on the raising input;
* the SQLite table `listings` is a `List Row`; SQL `WHERE`/`ORDER BY
  id DESC`/`LIMIT` become `List.filter`, an insertion sort descending by
  `id`, and `List.take`;
* `hashlib.md5(...).hexdigest()` is implemented bit-for-bit (RFC 1321) on
  the UTF-8 bytes, over `Nat` with explicit `% 2 ^ 32`.
-/

/-! ## Character classes (ASCII model of Python `re` classes) -/

/-- Python `\w` (ASCII part): letters, digits, underscore. -/
def isWordChar (c : Char) : Bool :=
  c.isAlphanum || c = '_'

/-- Python `\s` (ASCII part): space, tab, newline, CR, vertical tab, form feed. -/
def isWhiteChar (c : Char) : Bool :=
  c = ' ' || c = '\t' || c = '\n' || c = '\r' || c = Char.ofNat 11 || c = Char.ofNat 12

/-- The character class `[\s. ]` used by the price patterns:
whitespace, period, or non-breaking space. -/
def isSepChar (c : Char) : Bool :=
  isWhiteChar c || c = '.' || c = Char.ofNat 160

/-- The class `[\d\s. ]` of `PRICE_TOKEN_RE` / `PRICE_RANGE_RE`. -/
def isPriceChar (c : Char) : Bool :=
  c.isDigit || isSepChar c

/-! ## Indexed access -/

/-- Character at index `i`; out-of-range yields NUL, which is not a word
character, not a digit and not a separator, so boundary conditions at the
ends of the text come out right. -/
def charAt (cs : List Char) (i : Nat) : Char :=
  cs.getD i (Char.ofNat 0)

theorem charAt_of_ge {cs : List Char} {i : Nat} (hge : cs.length ≤ i) :
    charAt cs i = Char.ofNat 0 := by
  simp [charAt, List.getD, List.getElem?_eq_none hge]

theorem lt_length_of_digitAt {cs : List Char} {i : Nat}
    (hd : (charAt cs i).isDigit = true) : i < cs.length := by
  by_contra hlt
  rw [charAt_of_ge (Nat.le_of_not_lt hlt)] at hd
  exact absurd hd (by decide)

theorem lt_length_of_sepAt {cs : List Char} {i : Nat}
    (hs : isSepChar (charAt cs i) = true) : i < cs.length := by
  by_contra hlt
  rw [charAt_of_ge (Nat.le_of_not_lt hlt)] at hs
  exact absurd hs (by decide)

/-- `\b` just before index `i` when `cs[i]` is a word character: start of
text or a non-word character before. -/
def boundaryBefore (cs : List Char) (i : Nat) : Bool :=
  i == 0 || !isWordChar (charAt cs (i - 1))

/-- Digit value of the character at index `i` (only meaningful on digits). -/
def digitVal (cs : List Char) (i : Nat) : Nat :=
  (charAt cs i).toNat - 48

/-! ## `YEAR_RE = \b(19\d{2}|20\d{2})\b` -/

/-- Does `YEAR_RE` match at position `i`?  Returns the year value. -/
def yearAt (cs : List Char) (i : Nat) : Option Nat :=
  if boundaryBefore cs i
      && (charAt cs i).isDigit && (charAt cs (i+1)).isDigit
      && (charAt cs (i+2)).isDigit && (charAt cs (i+3)).isDigit
      && ((charAt cs i = '1' && charAt cs (i+1) = '9')
          || (charAt cs i = '2' && charAt cs (i+1) = '0'))
      && !isWordChar (charAt cs (i+4))
  then some (1000 * digitVal cs i + 100 * digitVal cs (i+1)
             + 10 * digitVal cs (i+2) + digitVal cs (i+3))
  else none

/-- Leftmost-match scan: try `f` at positions `i, i+1, ...` (`fuel` many),
first hit wins.  This is `re.search` position order. -/
def scanFirst (f : Nat → Option α) : Nat → Nat → Option α
  | 0, _ => none
  | fuel + 1, i =>
    match f i with
    | some v => some v
    | none => scanFirst f fuel (i + 1)

/-- `YEAR_RE.search(text)`: a match must start on a digit, hence inside the
text, so `cs.length` positions suffice. -/
def yearSearch (cs : List Char) : Option Nat :=
  scanFirst (yearAt cs) cs.length 0

/-! ## The price pattern of `parse_basic`:
`\b\d{6,}\b|\b\d{1,3}(?:[\s. ]\d{3})+\b` -/

/-- Length of the maximal run of digits at the head of a list. -/
def digitRun : List Char → Nat
  | c :: t => if c.isDigit then digitRun t + 1 else 0
  | [] => 0

/-- Length of the maximal run of digits starting at index `i`. -/
def digitRunLen (cs : List Char) (i : Nat) : Nat :=
  digitRun (cs.drop i)

/-- Number of consecutive full groups `[\s. ]\d{3}` at the head of a
list (the greedy iteration count of the `(?:...)+`). -/
def groupRun : List Char → Nat
  | a :: b :: c :: d :: t =>
    if isSepChar a && b.isDigit && c.isDigit && d.isDigit then groupRun t + 1
    else 0
  | _ => 0

/-- Number of consecutive full groups starting at index `i`. -/
def groupCount (cs : List Char) (i : Nat) : Nat :=
  groupRun (cs.drop i)

/-- The matched slice of text, `cs[i..i+len)`. -/
def matchedSlice (cs : List Char) (i len : Nat) : List Char :=
  (cs.drop i).take len

/-- First alternative `\b\d{6,}\b` at position `i`: a maximal digit run of
length at least 6 whose ends are both word boundaries.  (Backtracking the
greedy `\d{6,}` cannot help: shortening the run puts the boundary between
two digits.) -/
def alt1At (cs : List Char) (i : Nat) : Option (List Char) :=
  if boundaryBefore cs i && (charAt cs i).isDigit then
    let r := digitRunLen cs i
    if r ≥ 6 && !isWordChar (charAt cs (i + r)) then
      some (matchedSlice cs i r)
    else none
  else none

/-- Second alternative `\b\d{1,3}(?:[\s. ]\d{3})+\b` at position `i`.
The head run must have length 1–3 (a longer run can never reach a
separator).  The `+` is greedy with one step of backtracking: if the final
`\b` fails after `k` maximal groups (the next character is a word
character), the engine drops the last group, after which the next character
is that group's separator, so the boundary holds. -/
def alt2At (cs : List Char) (i : Nat) : Option (List Char) :=
  if boundaryBefore cs i && (charAt cs i).isDigit then
    let r := digitRunLen cs i
    if r ≤ 3 then
      let k := groupCount cs (i + r)
      if k ≥ 1 && !isWordChar (charAt cs (i + r + 4 * k)) then
        some (matchedSlice cs i (r + 4 * k))
      else if k ≥ 2 then
        some (matchedSlice cs i (r + 4 * (k - 1)))
      else none
    else none
  else none

/-- The whole price pattern at position `i`: Python alternation tries the
first alternative first. -/
def priceAt (cs : List Char) (i : Nat) : Option (List Char) :=
  match alt1At cs i with
  | some m => some m
  | none => alt2At cs i

/-- `re.search` for the price pattern (leftmost match). -/
def priceSearch (cs : List Char) : Option (List Char) :=
  scanFirst (priceAt cs) cs.length 0

/-! ## `normalize`, `to_int_price`, `parse_basic` -/

/-- `text.replace(" ", " ")` character map. -/
def nbspToSpace (c : Char) : Char :=
  if c = Char.ofNat 160 then ' ' else c

/-- Python `str.strip()` (ASCII whitespace model). -/
def pyStrip (l : List Char) : List Char :=
  ((l.dropWhile isWhiteChar).reverse.dropWhile isWhiteChar).reverse

/-- The source's `normalize(text)` (renamed: Mathlib already has a root
`normalize`): replace non-breaking spaces by spaces, then strip. -/
def normalizeText (s : String) : String :=
  String.mk (pyStrip (s.data.map nbspToSpace))

/-- `re.sub(r"\D", "", s)`: keep only the digits. -/
def digitsOf (l : List Char) : List Char :=
  l.filter Char.isDigit

/-- Value of a nonempty digit string. -/
def natOfDigits (l : List Char) : Nat :=
  l.foldl (fun a c => 10 * a + (c.toNat - 48)) 0

/-- `to_int_price(s) = int(re.sub(r"\D", "", s))`.  `int("")` raises
`ValueError`, modelled by `none`. -/
def to_int_price (l : List Char) : Option Nat :=
  if digitsOf l = [] then none else some (natOfDigits (digitsOf l))

/-- `parse_basic(text)`: requires both a year and a price somewhere in the
text; returns `(ok, year, price)`.  The outer `Option` models a potential
exception (in fact it never raises, see the totality theorem). -/
def parse_basic (text : String) : Option (Bool × Option Nat × Option Nat) :=
  let cs := text.data
  match yearSearch cs, priceSearch cs with
  | some y, some m =>
    match to_int_price m with
    | some p => some (true, some y, some p)
    | none => none
  | _, _ => some (false, none, none)

/-! ## `build_filters` (the filter parser) -/

/-- `re.split(r"\s+", raw)` with empty parts removed, as in
`[p for p in re.split(r"\s+", raw) if p]`.  Tokens therefore contain no
whitespace (and, after `normalize`, no non-breaking space either). -/
def splitTokens (l : List Char) : List (List Char) :=
  (l.splitOnP isWhiteChar).filter (fun t => !t.isEmpty)

/-- `re.fullmatch(r"(19\d{2}|20\d{2})", p)`. -/
def isYearTok (l : List Char) : Bool :=
  match l with
  | [a, b, c, d] =>
    ((a = '1' && b = '9') || (a = '2' && b = '0')) && c.isDigit && d.isDigit
  | _ => false

/-- `PRICE_RANGE_RE.match(p)` on a whitespace-free token:
`^\s*(\d[\d\s. ]{5,})\s*-\s*(\d[\d\s. ]{5,})\s*$`.
Each side is a greedy maximal run of price-class characters that starts
with a digit and is at least 6 characters long; the sides are joined by a
single `-` and the second side must reach the end of the token.  (On a
token without whitespace every `\s*` matches the empty string, and greedy
runs cannot backtrack usefully because `-` is outside the class.)
Returns the two captured groups. -/
def headIsDigit (l : List Char) : Bool :=
  match l with
  | c :: _ => c.isDigit
  | [] => false

def rangeMatch (l : List Char) : Option (List Char × List Char) :=
  let g1 := l.takeWhile isPriceChar
  let rest := l.dropWhile isPriceChar
  if headIsDigit l && g1.length ≥ 6 then
    match rest with
    | '-' :: r2 =>
      let g2 := r2.takeWhile isPriceChar
      let rest2 := r2.dropWhile isPriceChar
      if headIsDigit r2 && g2.length ≥ 6 && rest2.isEmpty then some (g1, g2)
      else none
    | _ => none
  else none

/-- `PRICE_TOKEN_RE.match(p)` on a whitespace-free token:
`(?i)^(<=|>=|<|>|=)?\s*([\d\s. ]{6,})$`.
An optional comparator (alternation order `<=`, `>=`, `<`, `>`, `=`), then
at least 6 price-class characters running to the end of the token.
Returns `(group(1) or "=", group(2))`. -/
def compOpSplit (l : List Char) : String × List Char :=
  match l with
  | '<' :: '=' :: r => ("<=", r)
  | '>' :: '=' :: r => (">=", r)
  | '<' :: r => ("<", r)
  | '>' :: r => (">", r)
  | '=' :: r => ("=", r)
  | r => ("=", r)

def compMatch (l : List Char) : Option (String × List Char) :=
  if (compOpSplit l).2.length ≥ 6 && (compOpSplit l).2.all isPriceChar then
    some ((compOpSplit l).1, (compOpSplit l).2)
  else none

/-- The dict returned by `build_filters`. -/
structure Filters where
  year : Option Nat
  price_op : Option String
  price_val : Option Nat
  price_min : Option Nat
  price_max : Option Nat
  terms : List String
  raw : String
deriving DecidableEq, Repr

/-- The initial filter state of `build_filters`. -/
def emptyFilters (raw : String) : Filters :=
  { year := none, price_op := none, price_val := none,
    price_min := none, price_max := none, terms := [], raw := raw }

/-- One iteration of the token loop of `build_filters`: year, range,
comparator, free term — first match wins, later tokens overwrite earlier
ones of the same kind.  `none` models the `ValueError` that
`to_int_price` raises when the matched numeric part has no digits. -/
def applyToken (f : Filters) (tok : List Char) : Option Filters :=
  if isYearTok tok then some { f with year := some (natOfDigits tok) }
  else
    match rangeMatch tok with
    | some (g1, g2) =>
      match to_int_price g1, to_int_price g2 with
      | some a, some b =>
        some (if a ≤ b then { f with price_min := some a, price_max := some b }
              else { f with price_min := some b, price_max := some a })
      | _, _ => none
    | none =>
      match compMatch tok with
      | some (op, rest) =>
        match to_int_price rest with
        | some v => some { f with price_op := some op, price_val := some v }
        | none => none
      | none => some { f with terms := f.terms ++ [String.mk tok] }

/-- `build_filters(raw)`; `none` models an uncaught `ValueError`. -/
def build_filters (raw : String) : Option Filters :=
  let r := normalizeText raw
  (splitTokens r.data).foldlM applyToken (emptyFilters r)

/-! ## MD5 (RFC 1321), used by `h` via `hashlib.md5` -/

/-- 2^32. -/
def m32 : Nat := 4294967296

/-- 2^32 - 1, the 32-bit mask; xor with it is 32-bit complement. -/
def mask32 : Nat := 4294967295

/-- 32-bit modular addition. -/
def add32 (a b : Nat) : Nat := (a + b) % m32

/-- 32-bit left rotation (for `x < 2^32`, `s ≤ 32`). -/
def rotl32 (x s : Nat) : Nat :=
  (x % 2 ^ (32 - s)) * 2 ^ s + x / 2 ^ (32 - s)

def md5F (b c d : Nat) : Nat := (b &&& c) ||| ((b ^^^ mask32) &&& d)
def md5G (b c d : Nat) : Nat := (d &&& b) ||| ((d ^^^ mask32) &&& c)
def md5H (b c d : Nat) : Nat := b ^^^ c ^^^ d
def md5I (b c d : Nat) : Nat := c ^^^ (b ||| (d ^^^ mask32))

/-- The 64 sine-derived constants. -/
def md5K : List Nat :=
  [0xd76aa478, 0xe8c7b756, 0x242070db, 0xc1bdceee,
   0xf57c0faf, 0x4787c62a, 0xa8304613, 0xfd469501,
   0x698098d8, 0x8b44f7af, 0xffff5bb1, 0x895cd7be,
   0x6b901122, 0xfd987193, 0xa679438e, 0x49b40821,
   0xf61e2562, 0xc040b340, 0x265e5a51, 0xe9b6c7aa,
   0xd62f105d, 0x02441453, 0xd8a1e681, 0xe7d3fbc8,
   0x21e1cde6, 0xc33707d6, 0xf4d50d87, 0x455a14ed,
   0xa9e3e905, 0xfcefa3f8, 0x676f02d9, 0x8d2a4c8a,
   0xfffa3942, 0x8771f681, 0x6d9d6122, 0xfde5380c,
   0xa4beea44, 0x4bdecfa9, 0xf6bb4b60, 0xbebfbc70,
   0x289b7ec6, 0xeaa127fa, 0xd4ef3085, 0x04881d05,
   0xd9d4d039, 0xe6db99e5, 0x1fa27cf8, 0xc4ac5665,
   0xf4292244, 0x432aff97, 0xab9423a7, 0xfc93a039,
   0x655b59c3, 0x8f0ccc92, 0xffeff47d, 0x85845dd1,
   0x6fa87e4f, 0xfe2ce6e0, 0xa3014314, 0x4e0811a1,
   0xf7537e82, 0xbd3af235, 0x2ad7d2bb, 0xeb86d391]

/-- The 64 per-round rotation amounts. -/
def md5S : List Nat :=
  [7, 12, 17, 22, 7, 12, 17, 22, 7, 12, 17, 22, 7, 12, 17, 22,
   5, 9, 14, 20, 5, 9, 14, 20, 5, 9, 14, 20, 5, 9, 14, 20,
   4, 11, 16, 23, 4, 11, 16, 23, 4, 11, 16, 23, 4, 11, 16, 23,
   6, 10, 15, 21, 6, 10, 15, 21, 6, 10, 15, 21, 6, 10, 15, 21]

/-- The 16 little-endian 32-bit words of a 64-byte block. -/
def md5Words (block : List Nat) : List Nat :=
  (List.range 16).map fun j =>
    block.getD (4 * j) 0 + 256 * block.getD (4 * j + 1) 0
      + 65536 * block.getD (4 * j + 2) 0 + 16777216 * block.getD (4 * j + 3) 0

/-- One of the 64 rounds, on state `(a, b, c, d)` with message words `w`. -/
def md5Round (w : List Nat) (st : Nat × Nat × Nat × Nat) (i : Nat) :
    Nat × Nat × Nat × Nat :=
  let (a, b, c, d) := st
  let fg : Nat × Nat :=
    if i < 16 then (md5F b c d, i)
    else if i < 32 then (md5G b c d, (5 * i + 1) % 16)
    else if i < 48 then (md5H b c d, (3 * i + 5) % 16)
    else (md5I b c d, (7 * i) % 16)
  let tmp := (fg.1 + a + md5K.getD i 0 + w.getD fg.2 0) % m32
  (d, add32 b (rotl32 tmp (md5S.getD i 0)), b, c)

/-- Compress one 64-byte block into the running state. -/
def md5Block (st : Nat × Nat × Nat × Nat) (block : List Nat) :
    Nat × Nat × Nat × Nat :=
  let r := (List.range 64).foldl (md5Round (md5Words block)) st
  (add32 st.1 r.1, add32 st.2.1 r.2.1, add32 st.2.2.1 r.2.2.1,
   add32 st.2.2.2 r.2.2.2)

/-- MD5 padding: `0x80`, zeros to 56 mod 64, then the bit length as eight
little-endian bytes (mod 2^64). -/
def md5Pad (msg : List Nat) : List Nat :=
  let len := msg.length
  let k := (56 + 64 - (len + 1) % 64) % 64
  msg ++ [128] ++ List.replicate k 0
    ++ (List.range 8).map fun i => 8 * len / 256 ^ i % 256

/-- Run the compression over all 64-byte blocks of a padded message. -/
def md5Process (bytes : List Nat) : Nat × Nat × Nat × Nat :=
  (List.range (bytes.length / 64)).foldl
    (fun st i => md5Block st ((bytes.drop (64 * i)).take 64))
    (0x67452301, 0xefcdab89, 0x98badcfe, 0x10325476)

def hexDigit (n : Nat) : Char :=
  "0123456789abcdef".data.getD n '0'

def byteHex (b : Nat) : List Char :=
  [hexDigit (b / 16 % 16), hexDigit (b % 16)]

/-- A 32-bit word as 8 hex characters, little-endian byte order. -/
def wordHexLE (x : Nat) : List Char :=
  byteHex (x % 256) ++ byteHex (x / 256 % 256) ++ byteHex (x / 65536 % 256)
    ++ byteHex (x / 16777216 % 256)

/-- `hashlib.md5(bytes).hexdigest()`. -/
def md5hex (msg : List Nat) : String :=
  let r := md5Process (md5Pad msg)
  String.mk (wordHexLE r.1 ++ wordHexLE r.2.1 ++ wordHexLE r.2.2.1
             ++ wordHexLE r.2.2.2)

/-! ## `h` (the fingerprint) -/

/-- UTF-8 encoding of one code point. -/
def utf8Bytes (c : Nat) : List Nat :=
  if c < 128 then [c]
  else if c < 2048 then [192 + c / 64, 128 + c % 64]
  else if c < 65536 then [224 + c / 4096, 128 + c / 64 % 64, 128 + c % 64]
  else [240 + c / 262144, 128 + c / 4096 % 64, 128 + c / 64 % 64, 128 + c % 64]

/-- `str.encode("utf-8")` on a list of code points. -/
def utf8Encode (l : List Nat) : List Nat :=
  (l.map utf8Bytes).flatten

/-- ASCII model of `str.lower` on one character (the claims only exercise
ASCII text; Python also lowercases non-ASCII letters). -/
def lowerChar (c : Char) : Char :=
  if 65 ≤ c.toNat ∧ c.toNat ≤ 90 then Char.ofNat (c.toNat + 32) else c

/-- ASCII model of `str.lower`. -/
def pyLower (s : String) : String :=
  String.mk (s.data.map lowerChar)

/-- `h(text) = hashlib.md5(text.lower().encode("utf-8")).hexdigest()`. -/
def h (s : String) : String :=
  md5hex (utf8Encode ((pyLower s).data.map Char.toNat))

/-! ## The `listings` table and its operations

A row of the SQLite table.  The `created` timestamp column is omitted: it
is supplied by the clock, never parsed, and only used for display and
statistics, which no claim touches. -/

structure Row where
  id : Nat
  src_chat : Int
  src_msg : Int
  text : String
  hash : String
  year : Nat
  price : Nat
  sold : Nat
  cat_msg : Option Int
deriving DecidableEq, Repr

/-- `SELECT 1 FROM listings WHERE hash=? LIMIT 1` is nonempty. -/
def exists_by_hash (store : List Row) (hs : String) : Bool :=
  store.any fun r => r.hash == hs

/-- SQLite `AUTOINCREMENT`: a fresh id larger than all existing ones. -/
def next_id (store : List Row) : Nat :=
  store.foldl (fun m r => max m r.id) 0 + 1

/-- `INSERT INTO listings (...) VALUES (...)` of `add_listing`:
hash `h(text)`, `sold = 0`, `cat_msg = NULL`. -/
def add_listing (store : List Row) (chat msgid : Int) (text : String)
    (year price : Nat) : List Row :=
  store ++ [{ id := next_id store, src_chat := chat, src_msg := msgid,
              text := text, hash := h text, year := year, price := price,
              sold := 0, cat_msg := none }]

/-- `SELECT ... FROM listings WHERE id=?` (first matching row). -/
def get_listing (store : List Row) (lid : Nat) : Option Row :=
  store.find? fun r => r.id == lid

/-- `UPDATE listings SET sold=1 WHERE id=?`. -/
def mark_sold (store : List Row) (lid : Nat) : List Row :=
  store.map fun r => if r.id == lid then { r with sold := 1 } else r

/-- `UPDATE listings SET cat_msg=? WHERE id=?`. -/
def set_cat_msg (store : List Row) (lid : Nat) (m : Int) : List Row :=
  store.map fun r => if r.id == lid then { r with cat_msg := some m } else r

/-! ## `search_db` -/

/-- Contiguous-sublist test for SQL `LIKE '%needle%'` (the claims use no
`%`/`_` wildcards inside terms, so plain containment is the semantics). -/
def isInfixL (needle : List Char) : List Char → Bool
  | [] => needle.isEmpty
  | c :: t => needle.isPrefixOf (c :: t) || isInfixL needle t

/-- `LOWER(text) LIKE '%' || LOWER(term) || '%'`.  SQLite `LOWER` and
Python `str.lower` agree on ASCII, modelled by `pyLower`. -/
def termMatches (text t : String) : Bool :=
  isInfixL (pyLower t).data (pyLower text).data

/-- `price <op> ?` with the op whitelist of `search_db`: an op outside
`<, >, <=, >=, =` is coerced to `=`. -/
def opApply (op : String) (price v : Nat) : Bool :=
  if op == "<" then decide (price < v)
  else if op == ">" then decide (price > v)
  else if op == "<=" then decide (price ≤ v)
  else if op == ">=" then decide (price ≥ v)
  else price == v

/-- The price clauses of `search_db`: `price BETWEEN ? AND ?` when both
range ends are present (`is not None`), otherwise the comparator clause
when `price_op` is truthy (non-empty) and `price_val is not None`. -/
def priceClause (f : Filters) (r : Row) : Bool :=
  match f.price_min, f.price_max with
  | some a, some b => decide (a ≤ r.price) && decide (r.price ≤ b)
  | _, _ =>
    match f.price_op, f.price_val with
    | some op, some v => if op == "" then true else opApply op r.price v
    | _, _ => true

/-- The full `WHERE` predicate of `search_db`: `sold=0`, the year clause
(only when `filters.get("year")` is truthy, i.e. present and nonzero),
the price clause, and every term as a case-insensitive substring. -/
def rowMatches (f : Filters) (r : Row) : Bool :=
  r.sold == 0
    && (match f.year with
        | some y => y == 0 || r.year == y
        | none => true)
    && priceClause f r
    && f.terms.all fun t => termMatches r.text t

/-- Insertion step for sorting by id, descending. -/
def insertDesc (x : Row) : List Row → List Row
  | [] => [x]
  | y :: ys => if x.id ≥ y.id then x :: y :: ys else y :: insertDesc x ys

/-- `ORDER BY id DESC`. -/
def sortByIdDesc (l : List Row) : List Row :=
  l.foldr insertDesc []

/-- `search_db(filters, limit)`: filter, order by id descending, truncate
at `limit`. -/
def search_db (store : List Row) (f : Filters) (limit : Nat) : List Row :=
  (sortByIdDesc (store.filter (rowMatches f))).take limit

/-! ## The handlers `catch_group` and `sold_cb` -/

/-- The state effect of the group-message handler `catch_group`: normalize,
classify, dedup by fingerprint, insert.  (The POSTER-mode repost and
logging are presentation side effects with no effect on the store beyond
`set_cat_msg`, which is modelled separately.) -/
def catch_group (store : List Row) (chat msgid : Int) (raw : String) :
    List Row :=
  let text := normalizeText raw
  if text == "" then store
  else
    match parse_basic text with
    | some (true, some year, some price) =>
      if exists_by_hash store (h text) then store
      else add_listing store chat msgid text year price
    | _ => store

/-- The user-visible outcome of the SOLD callback. -/
inductive SoldOutcome where
  | notFound
  | alreadySold
  | markedSold
deriving DecidableEq, Repr

/-- The `sold:` callback `sold_cb` on a parsed listing id: not found /
already sold (no mutation) / flip to sold. -/
def sold_cb (store : List Row) (lid : Nat) : SoldOutcome × List Row :=
  match get_listing store lid with
  | none => (SoldOutcome.notFound, store)
  | some row =>
    if row.sold ≠ 0 then (SoldOutcome.alreadySold, store)
    else (SoldOutcome.markedSold, mark_sold store lid)

/-- Every operation of the program that writes to the `listings` table. -/
inductive DbOp where
  | ingest (chat msgid : Int) (raw : String)
  | sold (lid : Nat)
  | setCat (lid : Nat) (m : Int)

/-- Apply one table-writing operation to the store. -/
def applyOp (store : List Row) : DbOp → List Row
  | DbOp.ingest chat msgid raw => catch_group store chat msgid raw
  | DbOp.sold lid => (sold_cb store lid).2
  | DbOp.setCat lid m => set_cat_msg store lid m

/-! ## Helper lemmas -/

/-- A successful scan has a leftmost hit: the scanner returns the value of
the first position at which the matcher fires. -/
theorem scanFirst_leftmost {α : Type} (f : Nat → Option α) :
    ∀ (fuel i : Nat) (v : α), scanFirst f fuel i = some v →
      ∃ k, i ≤ k ∧ f k = some v ∧ ∀ j, i ≤ j → j < k → f j = none := by
  intro fuel
  induction fuel with
  | zero => intro i v hv; simp [scanFirst] at hv
  | succ n ih =>
    intro i v hv
    rw [scanFirst] at hv
    cases hf : f i with
    | some w =>
      rw [hf] at hv
      exact ⟨i, Nat.le_refl i, by simpa using hv.symm ▸ hf, fun j h1 h2 => absurd (Nat.lt_of_le_of_lt h1 h2) (Nat.lt_irrefl i)⟩
    | none =>
      rw [hf] at hv
      obtain ⟨k, hk1, hk2, hk3⟩ := ih (i + 1) v hv
      refine ⟨k, Nat.le_trans (Nat.le_succ i) hk1, hk2, fun j h1 h2 => ?_⟩
      rcases Nat.eq_or_lt_of_le h1 with heq | hlt
      · exact heq ▸ hf
      · exact hk3 j hlt h2

/-- In-range suffix decomposition through `charAt`. -/
theorem drop_eq_charAt_cons {cs : List Char} {i : Nat} (hlt : i < cs.length) :
    cs.drop i = charAt cs i :: cs.drop (i + 1) := by
  have := List.drop_eq_getElem_cons hlt
  rwa [show cs[i] = charAt cs i by simp [charAt, List.getD, List.getElem?_eq_getElem hlt]] at this

/-- A nonempty matched slice starting on a digit begins with that digit. -/
theorem matchedSlice_digit_head {cs : List Char} {i len : Nat}
    (hd : (charAt cs i).isDigit = true) (hlen : 1 ≤ len) :
    ∃ t, matchedSlice cs i len = charAt cs i :: t := by
  obtain ⟨len1, rfl⟩ := Nat.exists_eq_add_of_le hlen
  rw [matchedSlice, drop_eq_charAt_cons (lt_length_of_digitAt hd)]
  exact ⟨(cs.drop (i + 1)).take len1, by simp [Nat.add_comm 1 len1]⟩

/-- `to_int_price` succeeds on any string that contains a digit at its
head. -/
theorem to_int_price_isSome_of_digit_head {c : Char} {t : List Char}
    (hd : c.isDigit = true) : (to_int_price (c :: t)).isSome = true := by
  simp [to_int_price, digitsOf, List.filter, hd]

/-- The head digit-run is nonempty when the scan starts on a digit. -/
theorem digitRunLen_pos {cs : List Char} {i : Nat}
    (hd : (charAt cs i).isDigit = true) : 1 ≤ digitRunLen cs i := by
  rw [digitRunLen, drop_eq_charAt_cons (lt_length_of_digitAt hd)]
  simp [digitRun, hd]

/-- Any match of the price pattern starts with a digit. -/
theorem priceAt_digit_head {cs : List Char} {i : Nat} {m : List Char}
    (hm : priceAt cs i = some m) :
    ∃ t, m = charAt cs i :: t ∧ (charAt cs i).isDigit = true := by
  rw [priceAt] at hm
  cases h1 : alt1At cs i with
  | some m1 =>
    rw [h1] at hm
    rw [alt1At] at h1
    by_cases hb : (boundaryBefore cs i && (charAt cs i).isDigit) = true
    · rw [if_pos hb] at h1
      have hd : (charAt cs i).isDigit = true := by
        simp [Bool.and_eq_true] at hb; exact hb.2
      by_cases hr : (decide (digitRunLen cs i ≥ 6) && !isWordChar (charAt cs (i + digitRunLen cs i))) = true
      · rw [if_pos hr] at h1
        simp [Bool.and_eq_true] at hr
        obtain ⟨t, ht⟩ := @matchedSlice_digit_head cs i (digitRunLen cs i) hd (by omega)
        exact ⟨t, by simp at hm h1; rw [← hm, ← h1, ht], hd⟩
      · rw [if_neg hr] at h1; exact absurd h1 (by simp)
    · rw [if_neg hb] at h1; exact absurd h1 (by simp)
  | none =>
    rw [h1] at hm
    rw [alt2At] at hm
    by_cases hb : (boundaryBefore cs i && (charAt cs i).isDigit) = true
    · rw [if_pos hb] at hm
      have hd : (charAt cs i).isDigit = true := by
        simp [Bool.and_eq_true] at hb; exact hb.2
      have hr1 : 1 ≤ digitRunLen cs i := digitRunLen_pos hd
      by_cases hr : digitRunLen cs i ≤ 3
      · rw [if_pos hr] at hm
        by_cases hk : (decide (groupCount cs (i + digitRunLen cs i) ≥ 1)
            && !isWordChar (charAt cs (i + digitRunLen cs i
              + 4 * groupCount cs (i + digitRunLen cs i)))) = true
        · rw [if_pos hk] at hm
          obtain ⟨t, ht⟩ := @matchedSlice_digit_head cs i
            (digitRunLen cs i + 4 * groupCount cs (i + digitRunLen cs i)) hd (by omega)
          exact ⟨t, by simp at hm; rw [← hm, ht], hd⟩
        · rw [if_neg hk] at hm
          by_cases hk2 : groupCount cs (i + digitRunLen cs i) ≥ 2
          · rw [if_pos hk2] at hm
            obtain ⟨t, ht⟩ := @matchedSlice_digit_head cs i
              (digitRunLen cs i + 4 * (groupCount cs (i + digitRunLen cs i) - 1)) hd (by omega)
            exact ⟨t, by simp at hm; rw [← hm, ht], hd⟩
          · rw [if_neg hk2] at hm; exact absurd hm (by simp)
      · rw [if_neg hr] at hm; exact absurd hm (by simp)
    · rw [if_neg hb] at hm; exact absurd hm (by simp)

/-- Bounds of `Char.isDigit` seen through `Char.toNat`. -/
theorem isDigit_toNat {c : Char} (hd : c.isDigit = true) :
    48 ≤ c.toNat ∧ c.toNat ≤ 57 := by
  simp [Char.isDigit] at hd
  exact hd

/-- Any value produced by the year pattern lies in 1900–2099: the leading
pair of digits is literally `19` or `20`. -/
theorem yearAt_bound {cs : List Char} {i v : Nat} (hv : yearAt cs i = some v) :
    1900 ≤ v ∧ v ≤ 2099 := by
  rw [yearAt] at hv
  split at hv
  case isFalse => exact absurd hv (by simp)
  case isTrue hc =>
    simp only [Option.some.injEq] at hv
    simp only [Bool.and_eq_true, Bool.or_eq_true, decide_eq_true_eq, and_assoc] at hc
    obtain ⟨-, hd0, hd1, hd2, hd3, h1920, -⟩ := hc
    obtain ⟨h2a, h2b⟩ := isDigit_toNat hd2
    obtain ⟨h3a, h3b⟩ := isDigit_toNat hd3
    rcases h1920 with ⟨ha, hb⟩ | ⟨ha, hb⟩
    · rw [← hv]
      simp only [digitVal, ha, hb]
      have e1 : Char.toNat '1' = 49 := by decide
      have e2 : Char.toNat '9' = 57 := by decide
      rw [e1, e2]
      omega
    · rw [← hv]
      simp only [digitVal, ha, hb]
      have e1 : Char.toNat '2' = 50 := by decide
      have e2 : Char.toNat '0' = 48 := by decide
      rw [e1, e2]
      omega

/-- `parse_basic` never raises: the matched price slice always starts with
a digit, so `to_int_price` cannot see an empty digit string. -/
theorem parse_basic_isSome (text : String) : (parse_basic text).isSome = true := by
  rw [parse_basic]
  cases hy : yearSearch text.data with
  | none => simp
  | some y =>
    cases hp : priceSearch text.data with
    | none => simp
    | some m =>
      obtain ⟨k, -, hk, -⟩ := scanFirst_leftmost _ _ _ _ hp
      obtain ⟨t, ht, hd⟩ := priceAt_digit_head hk
      subst ht
      cases hti : to_int_price (charAt text.data k :: t) with
      | none =>
        have := to_int_price_isSome_of_digit_head (t := t) hd
        rw [hti] at this
        exact absurd this (by simp)
      | some p => simp [hti]

/-- Structure of `parse_basic` results: the listing flag is set exactly
when both fields are present, and a rejection carries no fields. -/
theorem parse_basic_shape (text : String) (ok : Bool) (yo po : Option Nat)
    (hp : parse_basic text = some (ok, yo, po)) :
    (ok = true ↔ yo.isSome = true ∧ po.isSome = true) ∧
      (ok = false → yo = none ∧ po = none) := by
  rw [parse_basic] at hp
  cases hy : yearSearch text.data with
  | none => rw [hy] at hp; simp at hp; simp [← hp.1, ← hp.2.1, ← hp.2.2]
  | some y =>
    cases hpr : priceSearch text.data with
    | none =>
      rw [hy, hpr] at hp; simp at hp; simp [← hp.1, ← hp.2.1, ← hp.2.2]
    | some m =>
      rw [hy, hpr] at hp
      simp only [] at hp
      cases hti : to_int_price m with
      | none => rw [hti] at hp; simp at hp
      | some p =>
        rw [hti] at hp; simp at hp; simp [← hp.1, ← hp.2.1, ← hp.2.2]

/-- Membership is preserved by the descending insertion step. -/
theorem mem_insertDesc {a x : Row} : ∀ {l : List Row},
    a ∈ insertDesc x l → a = x ∨ a ∈ l := by
  intro l
  induction l with
  | nil => intro hm; simp only [insertDesc, List.mem_singleton] at hm; exact Or.inl hm
  | cons y ys ih =>
    intro hm
    rw [insertDesc] at hm
    split at hm
    · simp only [List.mem_cons] at hm ⊢
      tauto
    · simp only [List.mem_cons] at hm ⊢
      rcases hm with h1 | h1
      · tauto
      · rcases ih h1 with h2 | h2 <;> tauto

/-- Membership is preserved by `ORDER BY id DESC`. -/
theorem mem_sortByIdDesc {a : Row} : ∀ {l : List Row},
    a ∈ sortByIdDesc l → a ∈ l := by
  intro l
  induction l with
  | nil => intro hm; simpa only [sortByIdDesc, List.foldr_nil] using hm
  | cons y ys ih =>
    intro hm
    rcases mem_insertDesc (l := sortByIdDesc ys) hm with h1 | h1
    · exact h1 ▸ List.mem_cons_self y ys
    · exact List.mem_cons_of_mem y (ih h1)

/-- A row accepted by the `WHERE` clause has `sold = 0`. -/
theorem rowMatches_sold {f : Filters} {r : Row}
    (hm : rowMatches f r = true) : r.sold = 0 := by
  rw [rowMatches] at hm
  simp only [Bool.and_eq_true, beq_iff_eq] at hm
  exact hm.1.1.1

/-- `UPDATE ... WHERE id=?` flips exactly the looked-up row. -/
theorem get_listing_mark_sold (store : List Row) (lid : Nat) :
    get_listing (mark_sold store lid) lid
      = (get_listing store lid).map fun r => { r with sold := 1 } := by
  induction store with
  | nil => simp [get_listing, mark_sold]
  | cons r t ih =>
    by_cases hid : r.id = lid
    · simp [get_listing, mark_sold, List.find?_cons, hid]
    · simp [get_listing, mark_sold, List.find?_cons, hid] at ih ⊢
      exact ih

/-- The SOLD callback either leaves the store alone or runs the update. -/
theorem sold_cb_snd (store : List Row) (lid : Nat) :
    (sold_cb store lid).2 = store ∨ (sold_cb store lid).2 = mark_sold store lid := by
  rw [sold_cb]
  cases hg : get_listing store lid with
  | none => exact Or.inl rfl
  | some row =>
    dsimp only
    by_cases hs : row.sold ≠ 0
    · rw [if_pos hs]
      exact Or.inl rfl
    · rw [if_neg hs]
      exact Or.inr rfl

/-- `UPDATE ... SET sold=1` keeps every already-sold row sold, with its
identity. -/
theorem mark_sold_keeps_sold {store : List Row} {r : Row} (hmem : r ∈ store)
    (hs : r.sold ≠ 0) (lid : Nat) :
    ∃ r2, r2 ∈ mark_sold store lid ∧ r2.id = r.id ∧ r2.sold ≠ 0 := by
  refine ⟨if r.id == lid then { r with sold := 1 } else r,
    List.mem_map_of_mem _ hmem, ?_, ?_⟩
  · split <;> rfl
  · split
    · simp
    · exact hs

/-- No operation of the program ever un-sells a row: each sold row keeps
its id and stays sold under every table-writing operation. -/
theorem sold_monotone (op : DbOp) (store : List Row) (r : Row)
    (hmem : r ∈ store) (hs : r.sold ≠ 0) :
    ∃ r2, r2 ∈ applyOp store op ∧ r2.id = r.id ∧ r2.sold ≠ 0 := by
  cases op with
  | ingest chat msgid raw =>
    refine ⟨r, ?_, rfl, hs⟩
    rw [applyOp, catch_group]
    split
    · exact hmem
    · split
      · split
        · exact hmem
        · simp only [add_listing]
          exact List.mem_append_left _ hmem
      · exact hmem
  | sold lid =>
    rw [applyOp]
    rcases sold_cb_snd store lid with h1 | h1
    · rw [h1]
      exact ⟨r, hmem, rfl, hs⟩
    · rw [h1]
      exact mark_sold_keeps_sold hmem hs lid
  | setCat lid m =>
    refine ⟨if r.id == lid then { r with cat_msg := some m } else r,
      List.mem_map_of_mem _ hmem, ?_, ?_⟩
    · split <;> rfl
    · split <;> exact hs

/-- When the text classifies and its fingerprint is absent, `catch_group`
inserts. -/
theorem catch_group_inserts {store : List Row} {c m : Int} {raw : String}
    {y p : Nat}
    (hp : parse_basic (normalizeText raw) = some (true, some y, some p))
    (hn : exists_by_hash store (h (normalizeText raw)) = false) :
    catch_group store c m raw = add_listing store c m (normalizeText raw) y p := by
  rw [catch_group]
  by_cases he : normalizeText raw = ""
  · rw [he, show parse_basic "" = some (false, none, none) from by decide] at hp
    simp at hp
  · rw [if_neg (by simpa using he), hp]
    dsimp only
    rw [hn]
    rfl

/-- When the fingerprint is already present, `catch_group` inserts
nothing. -/
theorem catch_group_skips {store : List Row} {c m : Int} {raw : String}
    (he : exists_by_hash store (h (normalizeText raw)) = true) :
    catch_group store c m raw = store := by
  rw [catch_group]
  split
  · rfl
  · split
    · simp [he]
    · rfl

/-- The inserted row makes its own fingerprint present. -/
theorem exists_by_hash_add (store : List Row) (c m : Int) (text : String)
    (y p : Nat) :
    exists_by_hash (add_listing store c m text y p) (h text) = true := by
  simp [exists_by_hash, add_listing]

/-- An absent fingerprint means no row carries it. -/
theorem filter_hash_nil {store : List Row} {hs : String}
    (hn : exists_by_hash store hs = false) :
    store.filter (fun r => r.hash == hs) = [] := by
  rw [List.filter_eq_nil_iff]
  intro r hr
  simp only [exists_by_hash, List.any_eq_false] at hn
  simpa using hn r hr

/-- Inserting appends exactly one row with the inserted fingerprint. -/
theorem filter_hash_add (store : List Row) (c m : Int) (text : String)
    (y p : Nat) :
    ((add_listing store c m text y p).filter fun r => r.hash == h text).length
      = (store.filter fun r => r.hash == h text).length + 1 := by
  simp [add_listing, List.filter_append]

/-- With a complete range present, the `WHERE` predicate of `search_db`
does not depend on the comparator fields at all. -/
theorem rowMatches_range_ignores_op (f : Filters) (r : Row) (a b : Nat)
    (hmin : f.price_min = some a) (hmax : f.price_max = some b)
    (op : Option String) (v : Option Nat) :
    rowMatches { f with price_op := op, price_val := v } r = rowMatches f r := by
  simp [rowMatches, priceClause, hmin, hmax]

/-- The comparator token condition counts characters of the price class
(digits, spaces, periods, non-breaking spaces), not digits. -/
theorem compMatch_shape {tok : List Char} {op : String} {rest : List Char}
    (hc : compMatch tok = some (op, rest)) :
    6 ≤ rest.length ∧ ∀ c ∈ rest, isPriceChar c = true := by
  rw [compMatch] at hc
  split at hc
  case isTrue hcond =>
    simp only [Option.some.injEq, Prod.mk.injEq] at hc
    simp only [Bool.and_eq_true, decide_eq_true_eq, List.all_eq_true] at hcond
    exact ⟨hc.2 ▸ hcond.1, fun c hcmem => hcond.2 c (hc.2 ▸ hcmem)⟩
  case isFalse => exact absurd hc (by simp)

/-- The range token condition likewise counts price-class characters on
each side. -/
theorem rangeMatch_shape {tok g1 g2 : List Char}
    (hr : rangeMatch tok = some (g1, g2)) :
    (6 ≤ g1.length ∧ ∀ c ∈ g1, isPriceChar c = true) ∧
      (6 ≤ g2.length ∧ ∀ c ∈ g2, isPriceChar c = true) := by
  rw [rangeMatch] at hr
  split at hr
  case isTrue hcond =>
    split at hr
    next c2 heq =>
      dsimp only at hr
      split at hr
      case isTrue hcond2 =>
        simp only [Option.some.injEq, Prod.mk.injEq] at hr
        obtain ⟨hg1, hg2⟩ := hr
        subst hg1
        subst hg2
        simp only [Bool.and_eq_true, decide_eq_true_eq] at hcond hcond2
        exact ⟨⟨hcond.2, fun c hcm => List.mem_takeWhile_imp hcm⟩,
               ⟨hcond2.1.2, fun c hcm => List.mem_takeWhile_imp hcm⟩⟩
      case isFalse => exact absurd hr (by simp)
    next => exact absurd hr (by simp)
  case isFalse => exact absurd hr (by simp)

/-- `Char.ofNat` of a valid code point keeps its value. -/
theorem toNat_ofNat_of_valid {n : Nat} (hv : n.isValidChar) :
    (Char.ofNat n).toNat = n := by
  rw [Char.ofNat, dif_pos hv]
  rfl

/-- The ASCII lowering map is idempotent. -/
theorem lowerChar_idem (c : Char) : lowerChar (lowerChar c) = lowerChar c := by
  by_cases hcond : 65 ≤ c.toNat ∧ c.toNat ≤ 90
  · have hv : Nat.isValidChar (c.toNat + 32) := Or.inl (by omega)
    have ht := toNat_ofNat_of_valid hv
    rw [show lowerChar c = Char.ofNat (c.toNat + 32) from by rw [lowerChar, if_pos hcond]]
    rw [lowerChar, ht, if_neg (by omega)]
  · rw [show lowerChar c = c from by rw [lowerChar, if_neg hcond]]
    rw [lowerChar, if_neg hcond]

/-- `str.lower` is idempotent. -/
theorem pyLower_idem (s : String) : pyLower (pyLower s) = pyLower s := by
  simp only [pyLower, List.map_map]
  congr 1
  exact List.map_congr_left fun a _ => lowerChar_idem a

/-- When a text classifies as a listing, the year is the year-pattern
search result and the price is the integer value of the price-pattern
search result. -/
theorem parse_basic_components {text : String} {y p : Nat}
    (hp : parse_basic text = some (true, some y, some p)) :
    yearSearch text.data = some y ∧
      ∃ m, priceSearch text.data = some m ∧ to_int_price m = some p := by
  rw [parse_basic] at hp
  cases hys : yearSearch text.data with
  | none =>
    rw [hys] at hp
    simp at hp
  | some yy =>
    cases hpr : priceSearch text.data with
    | none =>
      rw [hys, hpr] at hp
      simp at hp
    | some m =>
      rw [hys, hpr] at hp
      simp only [] at hp
      cases hti : to_int_price m with
      | none =>
        rw [hti] at hp
        simp at hp
      | some pp =>
        rw [hti] at hp
        simp only [Option.some.injEq, Prod.mk.injEq] at hp
        obtain ⟨-, hy, hpp⟩ := hp
        rw [hpp] at hti
        exact ⟨congrArg some hy, m, rfl, hti⟩

/-- A rejection by `parse_basic` really is `(false, none, none)`, and a
success always carries both fields: the year field is only ever populated
from the year search. -/
theorem parse_basic_year_origin {text : String} {ok : Bool}
    {yo po : Option Nat} {y : Nat}
    (hp : parse_basic text = some (ok, yo, po)) (hy : yo = some y) :
    ∃ p : Nat, parse_basic text = some (true, some y, some p) := by
  subst hy
  rw [parse_basic] at hp
  cases hys : yearSearch text.data with
  | none =>
    rw [hys] at hp
    simp at hp
  | some yy =>
    cases hpr : priceSearch text.data with
    | none =>
      rw [hys, hpr] at hp
      simp at hp
    | some m =>
      rw [hys, hpr] at hp
      simp only [] at hp
      cases hti : to_int_price m with
      | none =>
        rw [hti] at hp
        simp at hp
      | some pp =>
        rw [hti] at hp
        simp only [Option.some.injEq, Prod.mk.injEq] at hp
        obtain ⟨hok, hyy, hpo⟩ := hp
        refine ⟨pp, ?_⟩
        rw [parse_basic, hys, hpr]
        simp only []
        rw [hti, hyy]

/-! ## The claims -/

/-- C1, counterexample: the code applies no runtime year bound.  The text
`"1969 123456"` has a year token outside `1970 ≤ year`, yet `parse_basic`
accepts it and classifies the text as a listing, contradicting the claim
that such a text is not a listing. -/
theorem c1_counterexample :
    parse_basic "1969 123456" = some (true, some 1969, some 123456) ∧
      ¬ 1970 ≤ 1969 := by
  refine ⟨by decide, by decide⟩

/-- C1, amended: classify accepts a year token exactly by the coarse
4-digit pattern 1900–2099 with word boundaries; no runtime
`1970 ≤ year ≤ currentYear+1` bound exists, so a token such as `"1969"`
is accepted and makes the text a listing. -/
theorem c1_year_coarse_bound_only :
    (∀ (text : String) (ok : Bool) (yo po : Option Nat) (y : Nat),
        parse_basic text = some (ok, yo, po) → yo = some y →
        1900 ≤ y ∧ y ≤ 2099) ∧
      parse_basic "1969 777777" = some (true, some 1969, some 777777) := by
  refine ⟨?_, by decide⟩
  intro text ok yo po y hp hy
  obtain ⟨p, hp2⟩ := parse_basic_year_origin hp hy
  obtain ⟨hys, -⟩ := parse_basic_components hp2
  obtain ⟨k, -, hk, -⟩ := scanFirst_leftmost _ _ _ _ hys
  exact yearAt_bound hk

/-- C1 witness: the year bound theorem applied to a concrete accepted
text. -/
theorem c1_year_coarse_bound_only_witness : 1900 ≤ 2020 ∧ 2020 ≤ 2099 :=
  c1_year_coarse_bound_only.1 "2020 654321" true (some 2020) (some 654321)
    2020 (by decide) rfl

/-- C2, counterexample: no minimum-price floor exists in the code.  The
grouped token `"1 234"` is a structural price match with value 1234,
far below the claimed 50 000 floor, and the text is still classified as a
listing with that price. -/
theorem c2_counterexample :
    parse_basic "2019 1 234" = some (true, some 2019, some 1234) ∧
      1234 < 50000 := by
  refine ⟨by decide, by decide⟩

/-- C2, amended: classify applies no price floor: whatever value the
first structural price match produces is taken as the price, however
small.  The spec's phone example is still rejected, but only because it
contains no year token. -/
theorem c2_no_price_floor :
    (∀ (text : String) (y p : Nat),
        parse_basic text = some (true, some y, some p) →
        ∃ m, priceSearch text.data = some m ∧ to_int_price m = some p) ∧
      parse_basic "2019 1 234" = some (true, some 2019, some 1234) ∧
      parse_basic "phone 89991234567" = some (false, none, none) := by
  refine ⟨?_, by decide, by decide⟩
  intro text y p hp
  exact (parse_basic_components hp).2

/-- C2 witness: the no-floor theorem applied to a concrete text whose
price is below 50 000. -/
theorem c2_no_price_floor_witness :
    ∃ m, priceSearch ("2019 55 555".data) = some m
      ∧ to_int_price m = some 55555 :=
  c2_no_price_floor.1 "2019 55 555" 2019 55555 (by decide)

/-- C3, counterexample: the `{6,}`/`{5,}` quantifiers count characters of
the price class, not digits.  `"100.00-200.00"` has only five digits per
side yet sets `priceRange = (10000, 20000)`, and `"<100.00"` sets
`priceComparator` with the five-digit value 10000. -/
theorem c3_counterexample :
    build_filters "100.00-200.00"
        = some (Filters.mk none none none (some 10000) (some 20000) []
            "100.00-200.00") ∧
      build_filters "<100.00"
        = some (Filters.mk none (some "<") (some 10000) none none []
            "<100.00") ∧
      (digitsOf "100.00".data).length < 6 := by
  refine ⟨by decide, by decide, by decide⟩

/-- C3, amended: the length conditions of the price-range and comparator
tokens are on characters of the class digits/space/period/non-breaking
space (at least 6, range sides starting with a digit), not on digits;
tokens with fewer than six digits but six such characters do set the
price fields. -/
theorem c3_price_char_count :
    (∀ (tok : List Char) (op : String) (rest : List Char),
        compMatch tok = some (op, rest) →
        6 ≤ rest.length ∧ ∀ c ∈ rest, isPriceChar c = true) ∧
      (∀ tok g1 g2 : List Char,
          rangeMatch tok = some (g1, g2) →
          (6 ≤ g1.length ∧ ∀ c ∈ g1, isPriceChar c = true) ∧
            (6 ≤ g2.length ∧ ∀ c ∈ g2, isPriceChar c = true)) ∧
      build_filters "<12345"
        = some (Filters.mk none none none none none ["<12345"] "<12345") ∧
      build_filters "=123.45"
        = some (Filters.mk none (some "=") (some 12345) none none []
            "=123.45") := by
  refine ⟨?_, ?_, by decide, by decide⟩
  · intro tok op rest hc
    exact compMatch_shape hc
  · intro tok g1 g2 hr
    exact rangeMatch_shape hr

/-- C3 witness: the character-count theorem applied to a concrete
comparator token. -/
theorem c3_price_char_count_witness :
    6 ≤ ("765432".data).length
      ∧ ∀ c ∈ ("765432".data), isPriceChar c = true :=
  c3_price_char_count.1 ("765432".data) "=" ("765432".data) (by decide)

/-- The query of claim C4 and the filter it parses to: both the range and
the comparator fields end up set. -/
def c4Filter : Filters :=
  Filters.mk none (some "<") (some 2500000) (some 2000000) (some 2600000)
    [] "2000000-2600000 <2500000"

/-- A listing whose price satisfies the range but not the comparator. -/
def c4Row : Row :=
  Row.mk 1 (-100) 7 "vw polo 2019" "" 2019 2550000 0 none

/-- C4, counterexample: in the query
`"2000000-2600000 <2500000"` the comparator token `<2500000` is parsed
last, yet search still applies the range and returns a row with price
2550000 that the later-parsed comparator rejects, contradicting
last-parsed-wins.  The two fields are also not mutually exclusive: both
are set in the parsed filter. -/
theorem c4_counterexample :
    build_filters "2000000-2600000 <2500000" = some c4Filter ∧
      search_db [c4Row] c4Filter 10 = [c4Row] ∧
      opApply "<" c4Row.price 2500000 = false := by
  refine ⟨by decide, by decide, by decide⟩

/-- C4, amended: `priceRange` and `priceComparator` are not mutually
exclusive — a query can set both — and whenever the range is present the
search predicate applies the range and ignores the comparator entirely,
regardless of the order of the tokens in the query. -/
theorem c4_range_precedence :
    (∀ (f : Filters) (r : Row) (a b : Nat),
        f.price_min = some a → f.price_max = some b →
        ∀ (op : Option String) (v : Option Nat),
          rowMatches { f with price_op := op, price_val := v } r
            = rowMatches f r) ∧
      build_filters "2000000-2600000 <2500000" = some c4Filter ∧
      c4Filter.price_min = some 2000000 ∧ c4Filter.price_op = some "<" := by
  refine ⟨?_, by decide, rfl, rfl⟩
  intro f r a b hmin hmax op v
  exact rowMatches_range_ignores_op f r a b hmin hmax op v

/-- C4 witness: with the range present, replacing the comparator fields
does not change the match result on the concrete row. -/
theorem c4_range_precedence_witness :
    rowMatches { c4Filter with price_op := some ">", price_val := some 9 }
        c4Row
      = rowMatches c4Filter c4Row :=
  c4_range_precedence.1 c4Filter c4Row 2000000 2600000 rfl rfl
    (some ">") (some 9)

/-- C5: the SOLD callback on an existing active listing flips it and
reports the flip; on an already-sold listing it mutates nothing and
reports already-sold; on an unknown id it reports not-found and mutates
nothing; a second call after a flip is the already-sold no-op; and no
operation of the program ever takes a row from sold back to active. -/
theorem c5_mark_sold_lifecycle (store : List Row) (lid : Nat) :
    (get_listing store lid = none →
        sold_cb store lid = (SoldOutcome.notFound, store)) ∧
    (∀ row, get_listing store lid = some row → row.sold ≠ 0 →
        sold_cb store lid = (SoldOutcome.alreadySold, store)) ∧
    (∀ row, get_listing store lid = some row → row.sold = 0 →
        sold_cb store lid = (SoldOutcome.markedSold, mark_sold store lid) ∧
        get_listing (mark_sold store lid) lid = some { row with sold := 1 } ∧
        sold_cb (mark_sold store lid) lid
          = (SoldOutcome.alreadySold, mark_sold store lid)) ∧
    (∀ (op : DbOp) (r : Row), r ∈ store → r.sold ≠ 0 →
        ∃ r2, r2 ∈ applyOp store op ∧ r2.id = r.id ∧ r2.sold ≠ 0) := by
  refine ⟨?_, ?_, ?_, fun op r hm hs => sold_monotone op store r hm hs⟩
  · intro hg
    rw [sold_cb, hg]
  · intro row hg hs
    rw [sold_cb, hg]
    dsimp only
    rw [if_pos hs]
  · intro row hg hs
    have hns : ¬row.sold ≠ 0 := by simp [hs]
    have h1 : sold_cb store lid
        = (SoldOutcome.markedSold, mark_sold store lid) := by
      rw [sold_cb, hg]
      dsimp only
      rw [if_neg hns]
    have h2 : get_listing (mark_sold store lid) lid
        = some { row with sold := 1 } := by
      rw [get_listing_mark_sold, hg]
      rfl
    refine ⟨h1, h2, ?_⟩
    rw [sold_cb, h2]
    dsimp only
    rw [if_pos (by simp)]

/-- The one-listing store used to witness claim C5. -/
def c5Store : List Row :=
  [Row.mk 1 (-5) 6 "bmw 2019 123456" "hh" 2019 123456 0 none]

/-- C5 witness: the lifecycle theorem applied to a concrete store:
flip, idempotent second call, not-found. -/
theorem c5_mark_sold_lifecycle_witness :
    sold_cb c5Store 1 = (SoldOutcome.markedSold, mark_sold c5Store 1) ∧
      sold_cb (mark_sold c5Store 1) 1
        = (SoldOutcome.alreadySold, mark_sold c5Store 1) ∧
      sold_cb c5Store 2 = (SoldOutcome.notFound, c5Store) := by
  obtain ⟨h1, h2, h3⟩ := (c5_mark_sold_lifecycle c5Store 1).2.2.1
    (Row.mk 1 (-5) 6 "bmw 2019 123456" "hh" 2019 123456 0 none)
    (by decide) rfl
  exact ⟨h1, h3, (c5_mark_sold_lifecycle c5Store 2).1 (by decide)⟩

/-- C6: ingesting the same normalized text twice in a row stores exactly
one listing with its fingerprint — the second ingestion finds the
fingerprint and inserts nothing, whatever the source chat and message
ids are. -/
theorem c6_dedup_idempotent (store : List Row) (ca ma cb mb : Int)
    (raw : String) (y p : Nat)
    (hp : parse_basic (normalizeText raw) = some (true, some y, some p))
    (hn : exists_by_hash store (h (normalizeText raw)) = false) :
    catch_group (catch_group store ca ma raw) cb mb raw
        = catch_group store ca ma raw ∧
      ((catch_group store ca ma raw).filter
          (fun r => r.hash == h (normalizeText raw))).length = 1 := by
  have h1 : catch_group store ca ma raw
      = add_listing store ca ma (normalizeText raw) y p :=
    catch_group_inserts hp hn
  constructor
  · rw [h1]
    exact catch_group_skips
      (exists_by_hash_add store ca ma (normalizeText raw) y p)
  · rw [h1, filter_hash_add store ca ma (normalizeText raw) y p,
        filter_hash_nil hn]
    rfl

/-- C6 witness: ingesting a concrete listing text twice from two
different sources yields one stored row and an unchanged store on the
second attempt. -/
theorem c6_dedup_idempotent_witness :
    catch_group (catch_group [] 1 2 "Audi A6 2018, 1 500 000") 3 4
        "Audi A6 2018, 1 500 000"
      = catch_group [] 1 2 "Audi A6 2018, 1 500 000" ∧
    ((catch_group [] 1 2 "Audi A6 2018, 1 500 000").filter
        (fun r => r.hash
          == h (normalizeText "Audi A6 2018, 1 500 000"))).length = 1 :=
  c6_dedup_idempotent [] 1 2 3 4 "Audi A6 2018, 1 500 000" 2018 1500000
    (by decide) (by decide)

/-- C7: every row returned by `search_db` is active (`sold = 0`), for
every store, filter and limit: the `WHERE` clause always conjoins
`sold=0`. -/
theorem c7_search_only_active (store : List Row) (f : Filters)
    (limit : Nat) (r : Row) (hr : r ∈ search_db store f limit) :
    r.sold = 0 := by
  rw [search_db] at hr
  have h2 := mem_sortByIdDesc (List.take_subset _ _ hr)
  exact rowMatches_sold (List.mem_filter.mp h2).2

/-- A two-row store (one active, one sold) used to witness claim C7. -/
def c7Store : List Row :=
  [Row.mk 1 0 1 "audi a4 2018 999999" "k1" 2018 999999 0 none,
   Row.mk 2 0 2 "sold car 2019 888888" "k2" 2019 888888 1 none]

/-- C7 witness: the theorem applied to a concrete search result. -/
theorem c7_search_only_active_witness :
    (Row.mk 1 0 1 "audi a4 2018 999999" "k1" 2018 999999 0 none).sold
      = 0 :=
  c7_search_only_active c7Store (emptyFilters "") 10 _ (by decide)

/-- C8: classify uses the leftmost match of each kind: whenever a text
classifies, its year is the value of the year pattern at some position
before which the pattern matches nowhere, and likewise its price; and the
spec's example evaluates as claimed. -/
theorem c8_leftmost_match :
    parse_basic "BMW 2019, 2 350 000"
        = some (true, some 2019, some 2350000) ∧
      (∀ (text : String) (y p : Nat),
        parse_basic text = some (true, some y, some p) →
        (∃ k, yearAt text.data k = some y ∧
            ∀ j, j < k → yearAt text.data j = none) ∧
        (∃ k m, priceAt text.data k = some m ∧ to_int_price m = some p ∧
            ∀ j, j < k → priceAt text.data j = none)) := by
  refine ⟨by decide, ?_⟩
  intro text y p hp
  obtain ⟨hys, m, hpr, hti⟩ := parse_basic_components hp
  constructor
  · obtain ⟨k, -, hk, hlt⟩ := scanFirst_leftmost _ _ _ _ hys
    exact ⟨k, hk, fun j hj => hlt j (Nat.zero_le j) hj⟩
  · obtain ⟨k, -, hk, hlt⟩ := scanFirst_leftmost _ _ _ _ hpr
    exact ⟨k, m, hk, hti, fun j hj => hlt j (Nat.zero_le j) hj⟩

/-- C8 witness: the leftmost-match theorem applied to the spec's
example text. -/
theorem c8_leftmost_match_witness :
    (∃ k, yearAt "BMW 2019, 2 350 000".data k = some 2019 ∧
        ∀ j, j < k → yearAt "BMW 2019, 2 350 000".data j = none) ∧
      (∃ k m, priceAt "BMW 2019, 2 350 000".data k = some m ∧
          to_int_price m = some 2350000 ∧
          ∀ j, j < k → priceAt "BMW 2019, 2 350 000".data j = none) :=
  c8_leftmost_match.2 "BMW 2019, 2 350 000" 2019 2350000 (by decide)

/-- C9, counterexample: `build_filters` is not total.  The token
`"......"` matches the comparator pattern with an all-separator numeric
part, `to_int_price` then calls `int` on the empty string, and the
resulting `ValueError` propagates out of the parser (modelled as
`none`). -/
theorem c9_counterexample : build_filters "......" = none := by decide

/-- C9, amended: classify is total and never raises, and reports
`isListing = true` exactly when both fields are found, with both fields
absent on rejection; the filter parser, however, raises `ValueError` on a
token of six or more separator characters, such as `"......"`. -/
theorem c9_classify_total_filters_partial :
    (∀ text : String, (parse_basic text).isSome = true) ∧
      (∀ (text : String) (ok : Bool) (yo po : Option Nat),
        parse_basic text = some (ok, yo, po) →
        (ok = true ↔ yo.isSome = true ∧ po.isSome = true) ∧
          (ok = false → yo = none ∧ po = none)) ∧
      build_filters "......" = none :=
  ⟨parse_basic_isSome, parse_basic_shape, by decide⟩

/-- C9 witness: the shape component of the theorem applied to a concrete
classified text. -/
theorem c9_classify_total_filters_partial_witness :
    ((true = true) ↔ ((some 2018 : Option Nat).isSome = true
        ∧ (some 999999 : Option Nat).isSome = true)) ∧
      (true = false → (some 2018 : Option Nat) = none
        ∧ (some 999999 : Option Nat) = none) :=
  c9_classify_total_filters_partial.2.1 "2018 999999" true (some 2018)
    (some 999999) (by decide)

/-- C10: the fingerprint is deterministic and case-insensitive: hashing a
text and hashing its lower-cased form agree, texts with equal lower-cased
content have equal fingerprints, and the spec's example pair collides. -/
theorem c10_fingerprint_lowercase :
    (∀ t : String, h t = h (pyLower t)) ∧
      (∀ t u : String, pyLower t = pyLower u → h t = h u) ∧
      h "Audi A6 2018" = h "audi a6 2018" := by
  have hkey : ∀ t u : String, pyLower t = pyLower u → h t = h u := by
    intro t u he
    simp only [h]
    rw [he]
  exact ⟨fun t => hkey t (pyLower t) (pyLower_idem t).symm, hkey,
    hkey _ _ (by decide)⟩

/-- C10 witness: the case-insensitivity component applied to a concrete
pair of texts. -/
theorem c10_fingerprint_lowercase_witness : h "BMW X5" = h "bmw x5" :=
  c10_fingerprint_lowercase.2.1 "BMW X5" "bmw x5" (by decide)
